import Mathlib

/-!
# Verification of the async_robin_stocks request/response core

Shallow embedding of the request/session core of the `async_robin_stocks`
library: the transport (`request_get`, `request_post`), the response shaper
(`filter_data`), symbol normalization (`inputs_to_set`), device-token
generation (`generate_device_token`), and the login/logout session logic.

JSON bodies are modelled by `JVal`; Python exceptions by `PyErr` values
threaded through `Except`; the network by explicit stub functions
`String → FetchResult`.
-/

/-- A JSON-like Python value: `None`, booleans, integers, strings,
lists and dicts (association lists, first binding wins). -/
inductive JVal where
  | null
  | bool (b : Bool)
  | num (n : Int)
  | str (s : String)
  | arr (xs : List JVal)
  | obj (fields : List (String × JVal))

/-- Python exceptions that the embedded code can raise. -/
inductive PyErr where
  | keyError (k : String)
  | indexError
  | typeError
  | nameError (n : String)
  | attributeError (a : String)
  | exn (msg : String)
deriving DecidableEq

namespace JVal

/-- Dict field lookup (first binding). -/
def lookupField (fields : List (String × JVal)) (k : String) : Option JVal :=
  match fields with
  | [] => none
  | (k', v) :: rest => if k' = k then some v else lookupField rest k

/-- Python `v[k]` for a string key `k`: dict lookup raising `KeyError`
when the key is absent, `TypeError` on non-dicts. -/
def getItem (v : JVal) (k : String) : Except PyErr JVal :=
  match v with
  | .obj fields =>
    match lookupField fields k with
    | some x => Except.ok x
    | none => Except.error (PyErr.keyError k)
  | _ => Except.error PyErr.typeError

/-- Python `v[0]`: first element of a list (`IndexError` when empty),
first character of a string, `KeyError` on a dict (integer key),
`TypeError` otherwise. -/
def indexZero (v : JVal) : Except PyErr JVal :=
  match v with
  | .arr [] => Except.error PyErr.indexError
  | .arr (x :: _) => Except.ok x
  | .str s =>
    match s.data with
    | [] => Except.error PyErr.indexError
    | c :: _ => Except.ok (.str (String.mk [c]))
  | .obj _ => Except.error (PyErr.keyError "0")
  | _ => Except.error PyErr.typeError

/-- Python truthiness of a JSON value. -/
def truthy : JVal → Bool
  | .null => false
  | .bool b => b
  | .num n => n != 0
  | .str s => s ≠ ""
  | .arr xs => !xs.isEmpty
  | .obj fields => !fields.isEmpty

/-- Substring test on character lists (Python `needle in hay` for strings). -/
def substrCheck (needle : List Char) : List Char → Bool
  | [] => needle.isEmpty
  | c :: t => needle.isPrefixOf (c :: t) || substrCheck needle t

/-- Python `key in v`: key membership for dicts, element membership for
lists, substring test for strings, `TypeError` otherwise. -/
def containsStr (key : String) (v : JVal) : Except PyErr Bool :=
  match v with
  | .obj fields => Except.ok (fields.any (fun p => p.1 = key))
  | .arr xs => Except.ok (xs.any (fun x => match x with | .str s => s = key | _ => false))
  | .str s => Except.ok (substrCheck key.data s.data)
  | _ => Except.error PyErr.typeError

/-- Python `for item in v`: lists yield elements, strings yield
one-character strings, dicts yield keys, else `TypeError`. -/
def pyIter (v : JVal) : Except PyErr (List JVal) :=
  match v with
  | .arr xs => Except.ok xs
  | .str s => Except.ok (s.data.map (fun c => JVal.str (String.mk [c])))
  | .obj fields => Except.ok (fields.map (fun p => JVal.str p.1))
  | _ => Except.error PyErr.typeError

end JVal

/-- The list comprehension `[x[info] for x in data]`: stops at the first
raising lookup. -/
def mapGetItem (f : String) : List JVal → Except PyErr (List JVal)
  | [] => Except.ok []
  | x :: xs =>
    match JVal.getItem x f with
    | Except.error e => Except.error e
    | Except.ok v =>
      match mapGetItem f xs with
      | Except.error e => Except.error e
      | Except.ok vs => Except.ok (v :: vs)

/-- `filter_data(client, data, info)` from `helper.py`: extracts the value
for keyword `info` from a dict or list-of-dicts result.  The `None` and
`[None]` sentinels short-circuit; an absent keyword is logged and degraded
to the mode's empty/absent value; `info = None` passes `data` through. -/
def filter_data (data : JVal) (info : Option String) : Except PyErr JVal :=
  match data with
  | .null => Except.ok .null
  | .arr [.null] => Except.ok (.arr [])
  | .arr [] => Except.ok (.arr [])
  | _ =>
    -- compareDict / noneType are assigned only for list and dict inputs
    let bindings : Option (JVal × JVal) :=
      match data with
      | .arr (x :: _) => some (x, .arr [])
      | .obj fields => some (.obj fields, .null)
      | _ => none
    match info with
    | none => Except.ok data
    | some f =>
      match bindings with
      | none => Except.error (PyErr.nameError "compareDict")
      | some (compareDict, noneType) =>
        match JVal.containsStr f compareDict with
        | Except.error e => Except.error e
        | Except.ok true =>
          match data with
          | .arr xs =>
            match mapGetItem f xs with
            | Except.ok vals => Except.ok (.arr vals)
            | Except.error e => Except.error e
          | _ => JVal.getItem data f
        | Except.ok false => Except.ok noneType

example : filter_data (.obj [("a", .num 1), ("b", .num 2)]) (some "b") = Except.ok (.num 2) := rfl
example : filter_data (.arr [.obj [("a", .num 1)], .obj [("a", .num 2)]]) (some "a")
    = Except.ok (.arr [.num 1, .num 2]) := rfl
example : filter_data .null (some "a") = Except.ok .null := rfl
example : filter_data (.arr [.null]) (some "a") = Except.ok (.arr []) := rfl
example : filter_data (.obj [("a", .num 1)]) (some "b") = Except.ok .null := rfl
example : filter_data (.arr [.obj [("a", .num 1)]]) (some "b") = Except.ok (.arr []) := rfl
example : filter_data (.num 3) none = Except.ok (.num 3) := rfl

/-! ## The GET transport (`request_get`) -/

/-- Outcome of one stubbed network exchange, by the exception it raises:
`connError` is `SESSION.get` itself failing (network/connection failure,
an `aiohttp.ClientConnectionError` — not a `ClientResponseError`);
`httpError` is `res.raise_for_status()` raising
`aiohttp.ClientResponseError` on an HTTP error status; `jsonError` is
`res.json()` raising `json.JSONDecodeError` on a body that fails JSON
parsing; `ok body` is a parsed JSON body.  Which of these a call site
survives depends on its `except` clause. -/
inductive FetchResult where
  | connError
  | httpError
  | jsonError
  | ok (body : JVal)

/-- Whether a fetch outcome is one of the three failure kinds. -/
def isFetchFailure : FetchResult → Bool
  | FetchResult.ok _ => false
  | _ => true

/-- Result of an embedded request: a normal return, a propagated Python
exception, or `spin` when the page-following loop is still running after
the supplied fuel (the real `while` loop would keep iterating). -/
inductive RRes where
  | done (v : JVal)
  | raised (e : PyErr)
  | spin

/-- Python `data.append(item) for item in items`: appending to a list
value; a non-list accumulator raises `AttributeError` unless there is
nothing to append. -/
def appendItems (data : JVal) (items : List JVal) : Except PyErr JVal :=
  match items with
  | [] => Except.ok data
  | _ =>
    match data with
    | .arr xs => Except.ok (.arr (xs ++ items))
    | _ => Except.error (PyErr.attributeError "append")

/-- The `while nextData['next']:` loop of `request_get`'s pagination mode
(helper.py lines 276–289).  `nextData` is the most recently parsed page
body, `data` the accumulated value.  The `nextData['next']` and
`nextData['results']` subscripts sit outside the `try`, so their
`KeyError`s propagate; only the fetch/parse of the next page is guarded,
and by a *bare* `except:`, so all three failure kinds are caught and the
accumulated `data` is returned.  Returns the list of URLs requested by
the loop together with the outcome. -/
def paginateLoop (net : String → FetchResult) : Nat → JVal → JVal → (List String × RRes)
  | 0, nextData, data =>
    (match JVal.getItem nextData "next" with
     | Except.error e => ([], RRes.raised e)
     | Except.ok nxt => if nxt.truthy then ([], RRes.spin) else ([], RRes.done data))
  | fuel + 1, nextData, data =>
    match JVal.getItem nextData "next" with
    | Except.error e => ([], RRes.raised e)
    | Except.ok nxt =>
      if nxt.truthy then
        match nxt with
        | .str u =>
          (match net u with
           | FetchResult.ok body =>
             match JVal.getItem body "results" with
             | Except.error e => ([u], RRes.raised e)
             | Except.ok items =>
               match items.pyIter with
               | Except.error e => ([u], RRes.raised e)
               | Except.ok xs =>
                 match appendItems data xs with
                 | Except.error e => ([u], RRes.raised e)
                 | Except.ok data' =>
                   let rest := paginateLoop net fuel body data'
                   (u :: rest.1, rest.2)
           | _ => ([u], RRes.done data))
        | _ => ([], RRes.done data)
      else ([], RRes.done data)

/-- `request_get(client, url, dataType, payload)` with `jsonify_data=True`
(helper.py lines 227–299).  The stub network `net` maps each requested URL
to a `FetchResult`; `fuel` bounds the pagination loop.  Returns the list
of URLs requested and the outcome.  The first fetch is guarded by
`except (aiohttp.ClientResponseError, AttributeError)` (line 253): only
an HTTP error status is caught (logged, returning the mode's initial
sentinel — `[None]` for results/pagination, `None` otherwise), while a
connection failure or a `json.JSONDecodeError` propagates to the caller.
(The clause also catches `AttributeError`, which the network stub never
produces — it would take a broken client object, not a failing
exchange.) -/
def request_get (net : String → FetchResult) (fuel : Nat) (url : String)
    (dataType : String) : (List String × RRes) :=
  let initData : JVal := if dataType = "results" || dataType = "pagination"
    then .arr [.null] else .null
  match net url with
  | FetchResult.connError => ([url], RRes.raised (PyErr.exn "connection error"))
  | FetchResult.jsonError => ([url], RRes.raised (PyErr.exn "json decode error"))
  | FetchResult.httpError => ([url], RRes.done initData)
  | FetchResult.ok body =>
    if dataType = "results" then
      match JVal.getItem body "results" with
      | Except.ok v => ([url], RRes.done v)
      | Except.error (PyErr.keyError _) => ([url], RRes.done (.arr [.null]))
      | Except.error e => ([url], RRes.raised e)
    else if dataType = "pagination" then
      match JVal.getItem body "results" with
      | Except.error (PyErr.keyError _) => ([url], RRes.done (.arr [.null]))
      | Except.error e => ([url], RRes.raised e)
      | Except.ok v =>
        let rest := paginateLoop net fuel body v
        (url :: rest.1, rest.2)
    else if dataType = "indexzero" then
      match JVal.getItem body "results" with
      | Except.error (PyErr.keyError _) => ([url], RRes.done .null)
      | Except.error e => ([url], RRes.raised e)
      | Except.ok res =>
        match res.indexZero with
        | Except.ok x => ([url], RRes.done x)
        | Except.error PyErr.indexError => ([url], RRes.done .null)
        | Except.error (PyErr.keyError _) => ([url], RRes.done .null)
        | Except.error e => ([url], RRes.raised e)
    else ([url], RRes.done body)

/-! ### Stubbed page chains -/

/-- The body served for the first page of a chain suffix: its `results`
field is the page's record list and its `next` field points at the next
page's URL (or is `null` for the last page). -/
def chainBody : List (String × List JVal) → JVal
  | [] => .null
  | (_, rs) :: rest =>
    let nxt : JVal := match rest with
      | [] => .null
      | (u', _) :: _ => .str u'
    .obj [("results", .arr rs), ("next", nxt)]

/-- Stub network serving an n-page chain: requesting a page's URL returns
its body; unknown URLs answer with an HTTP error status. -/
def chainNet : List (String × List JVal) → String → FetchResult
  | [], _ => FetchResult.httpError
  | page :: rest, u =>
    if u = page.1 then FetchResult.ok (chainBody (page :: rest))
    else chainNet rest u

/-- Like `chainBody`, but the last page's `next` points at `bad` (a URL
whose fetch will fail) instead of being `null`. -/
def chainBodyF (bad : String) : List (String × List JVal) → JVal
  | [] => .null
  | (_, rs) :: rest =>
    let nxt : JVal := match rest with
      | [] => .str bad
      | (u', _) :: _ => .str u'
    .obj [("results", .arr rs), ("next", nxt)]

/-- Stub network for the broken chain: known pages are served with
`chainBodyF` bodies, every other URL (in particular `bad`) fails with
the failure kind `e`. -/
def chainNetF (bad : String) (e : FetchResult) :
    List (String × List JVal) → String → FetchResult
  | [], _ => e
  | page :: rest, u =>
    if u = page.1 then FetchResult.ok (chainBodyF bad (page :: rest))
    else chainNetF bad e rest u

example :
    request_get (chainNet [("p1", [.num 1, .num 2]), ("p2", [.num 3]), ("p3", [.num 4])])
      3 "p1" "pagination"
    = (["p1", "p2", "p3"], RRes.done (.arr [.num 1, .num 2, .num 3, .num 4])) := rfl

example :
    request_get (chainNetF "bad" FetchResult.connError [("p1", [.num 1])]) 3 "p1" "pagination"
    = (["p1", "bad"], RRes.done (.arr [.num 1])) := rfl

example :
    request_get (fun u => if u = "p1"
        then FetchResult.ok (.obj [("results", .arr [.num 1]), ("next", .str "p2")])
        else FetchResult.ok (.obj [("next", .null)]))
      3 "p1" "pagination"
    = (["p1", "p2"], RRes.raised (PyErr.keyError "results")) := rfl

example : request_get (fun _ => FetchResult.httpError) 0 "u" "results"
    = (["u"], RRes.done (.arr [.null])) := rfl

example : request_get (fun _ => FetchResult.connError) 0 "u" "results"
    = (["u"], RRes.raised (PyErr.exn "connection error")) := rfl

example : request_get (fun _ => FetchResult.ok (.obj [("results", .arr [])])) 0 "u" "indexzero"
    = (["u"], RRes.done .null) := rfl

/-! ## The POST transport (`request_post`) -/

/-- Status codes `request_post` treats as non-fatal (helper.py lines
325 and 330). -/
def acceptedPostCodes : List Nat :=
  [200, 201, 202, 204, 301, 302, 303, 304, 307, 400, 401, 402, 403]

/-- A stubbed POST exchange: `none` models `SESSION.post` itself raising
(connection failure / timeout); otherwise the response's HTTP status and
its body (`none` when the body fails JSON parsing). -/
def PostResp := Option (Nat × Option JVal)

/-- What `request_post` hands back: the parsed data (`jsonify_data=True`)
or the raw response object (`jsonify_data=False`). -/
inductive PostRet where
  | jsonData (v : JVal)
  | rawResp (r : PostResp)

/-- The `try:` block of `request_post` (helper.py lines 320–332): post,
raise `Exception("Received <status>")` for a status outside the accepted
set, otherwise parse the body.  Yields the value bound to `data`. -/
def requestPostTry (resp : PostResp) : Except PyErr JVal :=
  match resp with
  | none => Except.error (PyErr.exn "connection error")
  | some (status, body) =>
    if acceptedPostCodes.contains status then
      match body with
      | some b => Except.ok b
      | none => Except.error (PyErr.exn "json decode error")
    else Except.error (PyErr.exn ("Received " ++ toString status))

/-- `request_post(client, url, payload, ...)` (helper.py lines 302–340):
every exception from the `try:` block — including the internally raised
status exception — is caught by `except Exception` and logged, leaving
`data = None`; the function then returns normally.  The result is an
`Except` only to make "raises to the caller" expressible: no input
produces an `Except.error`. -/
def request_post (resp : PostResp) (jsonify_data : Bool) : Except PyErr PostRet :=
  let data : Option JVal :=
    match requestPostTry resp with
    | Except.ok v => some v
    | Except.error _ => none   -- caught: `except Exception as message: log`
  let res : PostResp := resp
  if jsonify_data then
    Except.ok (PostRet.jsonData (match data with | some v => v | none => .null))
  else
    Except.ok (PostRet.rawResp res)

example : request_post (some (200, some (.obj [("ok", .bool true)]))) true
    = Except.ok (PostRet.jsonData (.obj [("ok", .bool true)])) := rfl
example : request_post (some (500, some (.obj [("ok", .bool true)]))) true
    = Except.ok (PostRet.jsonData .null) := rfl
example : request_post none true = Except.ok (PostRet.jsonData .null) := rfl

/-! ## Session state, `update_session`, `logout`, and the cached-token
login branch -/

/-- Python `str(value)` for an optional string header value:
`str(None) = "None"`. -/
def pyStrOpt : Option String → String
  | none => "None"
  | some s => s

/-- Set a key in a header map (Python dict assignment: overwrite the
existing binding or append a new one). -/
def setHeader (headers : List (String × String)) (key value : String) :
    List (String × String) :=
  match headers with
  | [] => [(key, value)]
  | (k, v) :: rest =>
    if k = key then (k, value) :: rest else (k, v) :: setHeader rest key value

/-- Look up a header value. -/
def headerLookup (headers : List (String × String)) (key : String) : Option String :=
  match headers with
  | [] => none
  | (k, v) :: rest => if k = key then some v else headerLookup rest key

/-- The mutable client state of `AsyncIORobinStocksClient`: the login
flag, the session header map, and whether the aiohttp session has been
closed. -/
structure Client where
  LOGGED_IN : Bool
  HEADERS : List (String × String)
  sessionClosed : Bool

/-- `client.update_session(key, value)` (client.py lines 130–139):
`HEADERS[key] = str(value)`. -/
def update_session (c : Client) (key : String) (value : Option String) : Client :=
  { c with HEADERS := setHeader c.HEADERS key (pyStrOpt value) }

/-- `logout(client)` (authentication.py lines 200–209), including the
`@login_required` guard: when not logged in, raise; otherwise clear the
login flag, run `update_session('Authorization', None)`, and close the
session. -/
def logout (c : Client) : Except PyErr Client :=
  if !c.LOGGED_IN then
    Except.error (PyErr.exn "logout can only be called when logged in")
  else
    let c := { c with LOGGED_IN := false }
    let c := update_session c "Authorization" none
    Except.ok { c with sessionClosed := true }

/-- The attribute names defined on `AsyncIORobinStocksClient` objects that
the cached-token login branch touches (client.py): note there is no
attribute named `loger`. -/
def clientAttrNames : List String :=
  ["LOGGED_IN", "HEADERS", "logger", "SESSION", "set_login_state",
   "update_session", "login", "logout"]

/-- Whether the cached-token branch returned with the cached session or
fell through to the password grant. -/
inductive CachedLoginStep where
  | cachedSuccess
  | fallThrough

/-- The stored-TokenSet branch of `login` (authentication.py lines
117–144), for `store_session=True` and an existing pickle file.  The
branch sets the login flag, installs the cached `Authorization` header,
and probes the positions endpoint; `probeOk` abstracts whether that probe
(request plus `raise_for_status`) succeeds.  On probe failure the bare
`except:` handler's first statement is `await client.loger.error(...)`;
`loger` is not an attribute of the client, so that lookup itself raises
`AttributeError`, which propagates out of `login` before
`set_login_state(False)` or the header reset can run. -/
def loginCachedBranch (c : Client) (token_type access_token : String)
    (probeOk : Bool) : Client × Except PyErr CachedLoginStep :=
  let c := { c with LOGGED_IN := true }   -- client.set_login_state(True)
  let c := update_session c "Authorization"
    (some (token_type ++ " " ++ access_token))
  if probeOk then
    (c, Except.ok CachedLoginStep.cachedSuccess)
  else
    -- except: await client.loger.error(...)
    if clientAttrNames.contains "loger" then
      let c := { c with LOGGED_IN := false }
      let c := update_session c "Authorization" none
      (c, Except.ok CachedLoginStep.fallThrough)
    else
      (c, Except.error (PyErr.attributeError "loger"))

example :
    (loginCachedBranch ⟨false, [("Accept", "*/*")], false⟩ "Bearer" "tok" false).2
    = Except.error (PyErr.attributeError "loger") := rfl
example :
    (loginCachedBranch ⟨false, [("Accept", "*/*")], false⟩ "Bearer" "tok" false).1.LOGGED_IN
    = true := rfl

/-! ## Device token generation (`generate_device_token`) -/

/-- Lowercase hex digit character for `n < 16` (as Python's `hex`). -/
def hexDigitChar (n : Nat) : Char :=
  if n < 10 then Char.ofNat (48 + n) else Char.ofNat (87 + n)

/-- Big-endian hex digits of `n` (fuelled structural recursion; fuel
`n + 1` always suffices). -/
def hexCharsAux : Nat → Nat → List Char
  | 0, _ => []
  | fuel + 1, n =>
    if n < 16 then [hexDigitChar n]
    else hexCharsAux fuel (n / 16) ++ [hexDigitChar (n % 16)]

/-- Python `hex(n)` for nonnegative `n`: `"0x"` followed by lowercase hex
digits. -/
def pyHex (n : Nat) : String :=
  "0x" ++ String.mk (hexCharsAux (n + 1) n)

/-- `str.lstrip(cs)`: drop leading characters belonging to `cs`. -/
def pyLstrip (s : String) (cs : List Char) : String :=
  String.mk (s.data.dropWhile (fun c => cs.contains c))

/-- `str.rstrip(cs)`: drop trailing characters belonging to `cs`. -/
def pyRstrip (s : String) (cs : List Char) : String :=
  String.mk ((s.data.reverse.dropWhile (fun c => cs.contains c)).reverse)

/-- One entry of the `hexa` table (authentication.py lines 24–26):
`str(hex(i+256)).lstrip("0x").rstrip("L")[1:]`. -/
def hexa (i : Nat) : String :=
  String.mk (((pyRstrip (pyLstrip (pyHex (i + 256)) ['0', 'x']) ['L']).data).drop 1)

example : hexa 0 = "00" := rfl
example : hexa 255 = "ff" := rfl
example : hexa 171 = "ab" := rfl

/-- The sixteen byte values `rands` (authentication.py lines 18–22): the
`i`-th is `(int(4294967296.0 * random.random()) >> ((3 & i) << 3)) & 255`,
where `xs` supplies the sixteen integers `int(4294967296.0 * r)`. -/
def tokenRands (xs : List Nat) : List Nat :=
  (List.range 16).map (fun i => (xs.getD i 0 >>> ((3 &&& i) <<< 3)) &&& 255)

/-- The id-assembly loop (authentication.py lines 28–34): concatenate the
hex of each byte, inserting `"-"` after bytes 3, 5, 7 and 9. -/
def buildTokenId (rands : List Nat) : String :=
  (List.range 16).foldl (fun id i =>
    let id := id ++ hexa (rands.getD i 0)
    if i == 3 || i == 5 || i == 7 || i == 9 then id ++ "-" else id) ""

/-- `generate_device_token()` (authentication.py lines 12–35), as a
function of the sixteen draws `int(4294967296.0 * random.random())`. -/
def generate_device_token (xs : List Nat) : String :=
  buildTokenId (tokenRands xs)

/-- Lowercase hexadecimal digit test. -/
def isLowerHexChar (c : Char) : Bool :=
  ('0' ≤ c && c ≤ '9') || ('a' ≤ c && c ≤ 'f')

/-- The UUID-like shape `XXXXXXXX-XXXX-XXXX-XXXX-XXXXXXXXXXXX`: exactly
36 characters, the 9th, 14th, 19th and 24th (positions 8, 13, 18, 23)
being hyphens and every other one a lowercase hex digit. -/
def isDeviceTokenFormat (s : String) : Bool :=
  match s.data with
  | a0 :: a1 :: a2 :: a3 :: a4 :: a5 :: a6 :: a7 :: g1 ::
    b0 :: b1 :: b2 :: b3 :: g2 ::
    c0 :: c1 :: c2 :: c3 :: g3 ::
    d0 :: d1 :: d2 :: d3 :: g4 ::
    e0 :: e1 :: e2 :: e3 :: e4 :: e5 :: e6 :: e7 :: e8 :: e9 :: e10 :: e11 :: [] =>
    g1 == '-' && g2 == '-' && g3 == '-' && g4 == '-' &&
    ([a0, a1, a2, a3, a4, a5, a6, a7, b0, b1, b2, b3, c0, c1, c2, c3,
      d0, d1, d2, d3, e0, e1, e2, e3, e4, e5, e6, e7, e8, e9, e10, e11].all isLowerHexChar)
  | _ => false

/-- Parse a two-hex-digit string back to its byte (left inverse of
`hexa` on bytes). -/
def unhexa (s : String) : Nat :=
  match s.data with
  | [c, d] =>
    let dv : Char → Nat := fun c =>
      if c.toNat ≥ 97 then c.toNat - 87 else c.toNat - 48
    16 * dv c + dv d
  | _ => 0

example : isDeviceTokenFormat (generate_device_token (List.range 16)) = true := by decide
example : unhexa (hexa 171) = 171 := by decide

/-! ## Symbol normalization (`inputs_to_set`) -/

/-- An element of a Python collection passed to `inputs_to_set`: a string
or some non-string object (tagged opaquely). -/
inductive PyElem where
  | str (s : String)
  | nonstr (tag : Nat)

/-- The argument of `inputs_to_set`: a string, a list/tuple/set of
elements, or a value of any other type. -/
inductive PyInput where
  | str (s : String)
  | coll (xs : List PyElem)
  | other (tag : Nat)

/-- Python `c.upper()` restricted to ASCII letters (the alphabet of stock
tickers): map `a`–`z` to `A`–`Z`, leave everything else unchanged. -/
def pyUpperChar (c : Char) : Char :=
  if 'a' ≤ c && c ≤ 'z' then Char.ofNat (c.toNat - 32) else c

/-- Python `s.upper()`. -/
def pyUpper (s : String) : String :=
  String.mk (s.data.map pyUpperChar)

/-- Python's whitespace characters for `str.strip()`. -/
def isPySpace (c : Char) : Bool :=
  c == ' ' || c == '\t' || c == '\n' || c == '\r' || c == '\x0b' || c == '\x0c'

/-- `str.strip()` on a character list: drop leading and trailing
whitespace. -/
def stripData (l : List Char) : List Char :=
  ((l.dropWhile isPySpace).reverse.dropWhile isPySpace).reverse

/-- Python `s.strip()`. -/
def pyStrip (s : String) : String :=
  String.mk (stripData s.data)

/-- `symbol.upper().strip()` as applied by `add_symbol`. -/
def pyNormalize (s : String) : String :=
  pyStrip (pyUpper s)

/-- The `add_symbol` loop of `inputs_to_set` (helper.py lines 194–205):
normalize each symbol and append it unless already present. -/
def addAllSymbols (syms : List String) (acc : List String) : List String :=
  match syms with
  | [] => acc
  | s :: rest =>
    let t := pyNormalize s
    addAllSymbols rest (if t ∈ acc then acc else acc ++ [t])

/-- The strings of a collection, in order (the list comprehension
`[comp for comp in inputSymbols if type(comp) is str]`). -/
def collStrings (xs : List PyElem) : List String :=
  xs.filterMap (fun e => match e with | PyElem.str s => some s | PyElem.nonstr _ => none)

/-- `inputs_to_set(inputSymbols)` (helper.py lines 180–207). -/
def inputs_to_set : PyInput → List String
  | PyInput.str s => addAllSymbols [s] []
  | PyInput.coll xs => addAllSymbols (collStrings xs) []
  | PyInput.other _ => []

/-- Keep each string's first occurrence, dropping all later duplicates
(specification of the order of `inputs_to_set`'s output). -/
def dedupFirst : List String → List String
  | [] => []
  | x :: xs => x :: dedupFirst (xs.filter (fun y => y ≠ x))
termination_by l => l.length
decreasing_by
  simp only [List.length_cons]
  exact Nat.lt_succ_of_le (List.length_filter_le _ _)

example : inputs_to_set (PyInput.coll
    [PyElem.str " aapl", PyElem.nonstr 0, PyElem.str "TSLA ", PyElem.str "AAPL"])
    = ["AAPL", "TSLA"] := rfl
example : inputs_to_set (PyInput.str "  msft ") = ["MSFT"] := rfl

/-! ## Claims -/

/-- Helper: setting a header then looking it up yields the new value. -/
theorem headerLookup_setHeader (hs : List (String × String)) (k v : String) :
    headerLookup (setHeader hs k v) k = some v := by
  induction hs with
  | nil => simp [setHeader, headerLookup]
  | cons p rest ih =>
    by_cases h : p.1 = k
    · simp [setHeader, headerLookup, h]
    · simp [setHeader, headerLookup, h, ih]

/-- C1 counterexample: a POST answered with HTTP 500 (outside the
accepted set) and a well-formed JSON body does not raise: `request_post`
catches its own status exception, logs it, and returns normally with
`data = None` — not the response body. -/
theorem claim_C1_counterexample :
    request_post (some (500, some (JVal.obj [("ok", JVal.bool true)]))) true
      = Except.ok (PostRet.jsonData JVal.null) ∧
    PostRet.jsonData JVal.null ≠ PostRet.jsonData (JVal.obj [("ok", JVal.bool true)]) := by
  exact ⟨rfl, by simp⟩

/-- C1 (amended): for every POST whose HTTP status is outside the accepted
set {200,201,202,204,301,302,303,304,307,400,401,402,403}, `request_post`
(with `jsonify_data=True`) catches the internally raised status exception,
logs it, and returns the absent value `None`; the response body is never
parsed into the result and no exception reaches the caller. -/
theorem claim_C1_amended (status : Nat) (body : Option JVal)
    (h : status ∉ acceptedPostCodes) :
    request_post (some (status, body)) true
      = Except.ok (PostRet.jsonData JVal.null) := by
  simp [request_post, requestPostTry, h]

/-- C1 witness: the amended statement at status 500. -/
theorem claim_C1_amended_witness :
    request_post (some (500, some (JVal.obj [("ok", JVal.bool true)]))) true
      = Except.ok (PostRet.jsonData JVal.null) :=
  claim_C1_amended 500 (some (JVal.obj [("ok", JVal.bool true)])) (by decide)

/-- C3: the code contradicts the claim.  With a stored TokenSet and
`store_session=True`, when the authenticated profile probe fails the
`except:` handler's first statement reads `client.loger` — a misspelling
of `logger`, not an attribute of the client — so an `AttributeError`
propagates out of `login` before the login flag or `Authorization` header
is cleared and password grant is never reached; the client is left marked
logged-in with the stale cached header installed. -/
theorem claim_C3_bug :
    (loginCachedBranch ⟨false, [("Accept", "*/*")], false⟩ "Bearer" "cachedtok" false).2
      = Except.error (PyErr.attributeError "loger") ∧
    (loginCachedBranch ⟨false, [("Accept", "*/*")], false⟩ "Bearer" "cachedtok" false).1.LOGGED_IN
      = true ∧
    headerLookup
      (loginCachedBranch ⟨false, [("Accept", "*/*")], false⟩ "Bearer" "cachedtok" false).1.HEADERS
      "Authorization" = some "Bearer cachedtok" := by
  exact ⟨rfl, rfl, rfl⟩

/-- C4 counterexample: in results mode a request answered with an HTTP
error status returns the sentinel `[None]` — a one-element list — not an
empty sequence; and a request whose connection fails does not return an
empty sequence either: the exception is outside the
`except (aiohttp.ClientResponseError, AttributeError)` clause and
propagates. -/
theorem claim_C4_counterexample :
    request_get (fun _ => FetchResult.httpError) 0 "https://api.robinhood.com/" "results"
      = (["https://api.robinhood.com/"], RRes.done (JVal.arr [JVal.null])) ∧
    JVal.arr [JVal.null] ≠ JVal.arr [] ∧
    request_get (fun _ => FetchResult.connError) 0 "https://api.robinhood.com/" "results"
      = (["https://api.robinhood.com/"], RRes.raised (PyErr.exn "connection error")) := by
  exact ⟨rfl, by simp, rfl⟩

/-- C4 (amended): for every GET in results mode, an HTTP error status —
the one failure the first fetch's `except (aiohttp.ClientResponseError,
AttributeError)` clause catches — or a body lacking the `results` key
makes `request_get` return the sentinel `[None]` (a singleton list
holding the absent marker, which `filter_data` later maps to an empty
sequence); a network/connection failure or a `json.JSONDecodeError` from
parsing the body is not caught and propagates out of `request_get`; and
a present key returns `body['results']` unchanged. -/
theorem claim_C4_amended (net : String → FetchResult) (fuel : Nat) (url : String)
    (fields : List (String × JVal)) (v : JVal) :
    (net url = FetchResult.httpError →
      request_get net fuel url "results"
        = ([url], RRes.done (JVal.arr [JVal.null]))) ∧
    (net url = FetchResult.connError →
      request_get net fuel url "results"
        = ([url], RRes.raised (PyErr.exn "connection error"))) ∧
    (net url = FetchResult.jsonError →
      request_get net fuel url "results"
        = ([url], RRes.raised (PyErr.exn "json decode error"))) ∧
    (net url = FetchResult.ok (JVal.obj fields) →
      JVal.lookupField fields "results" = none →
      request_get net fuel url "results"
        = ([url], RRes.done (JVal.arr [JVal.null]))) ∧
    (net url = FetchResult.ok (JVal.obj fields) →
      JVal.lookupField fields "results" = some v →
      request_get net fuel url "results" = ([url], RRes.done v)) := by
  refine ⟨fun h => ?_, fun h => ?_, fun h => ?_, fun h hk => ?_, fun h hk => ?_⟩
  · simp [request_get, h]
  · simp [request_get, h]
  · simp [request_get, h]
  · simp [request_get, h, JVal.getItem, hk]
  · simp [request_get, h, JVal.getItem, hk]

/-- C4 witness: the amended statement on a concrete one-request network
for each of the five cases. -/
theorem claim_C4_amended_witness :
    request_get (fun _ => FetchResult.httpError) 0 "u" "results"
      = (["u"], RRes.done (JVal.arr [JVal.null])) ∧
    request_get (fun _ => FetchResult.connError) 0 "u" "results"
      = (["u"], RRes.raised (PyErr.exn "connection error")) ∧
    request_get (fun _ => FetchResult.jsonError) 0 "u" "results"
      = (["u"], RRes.raised (PyErr.exn "json decode error")) ∧
    request_get (fun _ => FetchResult.ok (JVal.obj [("next", JVal.null)])) 0 "u" "results"
      = (["u"], RRes.done (JVal.arr [JVal.null])) ∧
    request_get (fun _ => FetchResult.ok (JVal.obj [("results", JVal.arr [JVal.num 7])]))
      0 "u" "results" = (["u"], RRes.done (JVal.arr [JVal.num 7])) := by
  refine ⟨?_, ?_, ?_, ?_, ?_⟩
  · exact (claim_C4_amended (fun _ => FetchResult.httpError)
      0 "u" [] JVal.null).1 rfl
  · exact (claim_C4_amended (fun _ => FetchResult.connError)
      0 "u" [] JVal.null).2.1 rfl
  · exact (claim_C4_amended (fun _ => FetchResult.jsonError)
      0 "u" [] JVal.null).2.2.1 rfl
  · exact (claim_C4_amended (fun _ => FetchResult.ok (JVal.obj [("next", JVal.null)]))
      0 "u" [("next", JVal.null)] JVal.null).2.2.2.1 rfl rfl
  · exact (claim_C4_amended (fun _ => FetchResult.ok (JVal.obj [("results", JVal.arr [JVal.num 7])]))
      0 "u" [("results", JVal.arr [JVal.num 7])] (JVal.arr [JVal.num 7])).2.2.2.2 rfl rfl

/-- C7: in indexzero mode, a missing `results` key or an empty results
list yields the absent value `None` as a normal return (the `KeyError` /
`IndexError` is caught), and a nonempty results list yields its first
element. -/
theorem claim_C7_indexzero (net : String → FetchResult) (fuel : Nat) (url : String)
    (fields : List (String × JVal)) (x : JVal) (xs : List JVal) :
    (net url = FetchResult.ok (JVal.obj fields) →
      JVal.lookupField fields "results" = none →
      request_get net fuel url "indexzero" = ([url], RRes.done JVal.null)) ∧
    (net url = FetchResult.ok (JVal.obj fields) →
      JVal.lookupField fields "results" = some (JVal.arr []) →
      request_get net fuel url "indexzero" = ([url], RRes.done JVal.null)) ∧
    (net url = FetchResult.ok (JVal.obj fields) →
      JVal.lookupField fields "results" = some (JVal.arr (x :: xs)) →
      request_get net fuel url "indexzero" = ([url], RRes.done x)) := by
  refine ⟨fun h hk => ?_, fun h hk => ?_, fun h hk => ?_⟩
  · simp [request_get, h, JVal.getItem, hk]
  · simp [request_get, h, JVal.getItem, hk, JVal.indexZero]
  · simp [request_get, h, JVal.getItem, hk, JVal.indexZero]

/-- C7 witness: the three indexzero cases on concrete bodies. -/
theorem claim_C7_indexzero_witness :
    request_get (fun _ => FetchResult.ok (JVal.obj [("detail", JVal.str "x")])) 0 "u" "indexzero"
      = (["u"], RRes.done JVal.null) ∧
    request_get (fun _ => FetchResult.ok (JVal.obj [("results", JVal.arr [])])) 0 "u" "indexzero"
      = (["u"], RRes.done JVal.null) ∧
    request_get (fun _ => FetchResult.ok
        (JVal.obj [("results", JVal.arr [JVal.str "first", JVal.str "second"])])) 0 "u" "indexzero"
      = (["u"], RRes.done (JVal.str "first")) := by
  refine ⟨?_, ?_, ?_⟩
  · exact (claim_C7_indexzero (fun _ => FetchResult.ok (JVal.obj [("detail", JVal.str "x")]))
      0 "u" [("detail", JVal.str "x")] JVal.null []).1 rfl rfl
  · exact (claim_C7_indexzero (fun _ => FetchResult.ok (JVal.obj [("results", JVal.arr [])]))
      0 "u" [("results", JVal.arr [])] JVal.null []).2.1 rfl rfl
  · exact (claim_C7_indexzero (fun _ => FetchResult.ok
      (JVal.obj [("results", JVal.arr [JVal.str "first", JVal.str "second"])]))
      0 "u" [("results", JVal.arr [JVal.str "first", JVal.str "second"])]
      (JVal.str "first") [JVal.str "second"]).2.2 rfl rfl

/-- C8 counterexample: logging out a logged-in client leaves the
`Authorization` key in the header map, bound to the string `"None"`
(`HEADERS[key] = str(None)`), rather than removing it. -/
theorem claim_C8_counterexample :
    logout ⟨true, [("Authorization", "Bearer tok")], false⟩
      = Except.ok ⟨false, [("Authorization", "None")], true⟩ ∧
    headerLookup [("Authorization", "None")] "Authorization" = some "None" := by
  exact ⟨rfl, rfl⟩

/-- C8 (amended): logout on a logged-in client clears the login flag,
overwrites the `Authorization` header with the string `"None"`
(`str(None)`; the key stays in the header map), and closes the transport
session. -/
theorem claim_C8_amended (c : Client) (h : c.LOGGED_IN = true) :
    logout c = Except.ok
      { LOGGED_IN := false,
        HEADERS := setHeader c.HEADERS "Authorization" "None",
        sessionClosed := true } ∧
    headerLookup (setHeader c.HEADERS "Authorization" "None") "Authorization"
      = some "None" := by
  refine ⟨?_, headerLookup_setHeader _ _ _⟩
  simp [logout, h, update_session, pyStrOpt]

/-- C8 witness: the amended statement at a concrete logged-in client. -/
theorem claim_C8_amended_witness :
    logout ⟨true, [("Accept", "*/*"), ("Authorization", "Bearer tok")], false⟩
      = Except.ok ⟨false, [("Accept", "*/*"), ("Authorization", "None")], true⟩ ∧
    headerLookup (setHeader [("Accept", "*/*"), ("Authorization", "Bearer tok")]
        "Authorization" "None") "Authorization" = some "None" := by
  have h := claim_C8_amended ⟨true, [("Accept", "*/*"), ("Authorization", "Bearer tok")], false⟩ rfl
  exact ⟨h.1, h.2⟩

/-! ## Pagination chain lemmas -/

/-- Appending records to a list-valued accumulator always succeeds. -/
theorem appendItems_arr (l xs : List JVal) :
    appendItems (JVal.arr l) xs = Except.ok (JVal.arr (l ++ xs)) := by
  cases xs <;> simp [appendItems]

/-- On a chain with distinct URLs, requesting the URL heading any suffix
serves that suffix's first page body. -/
theorem chainNet_suffix :
    ∀ (pages : List (String × List JVal)), (pages.map Prod.fst).Nodup →
    ∀ (u : String) (rs : List JVal) (tail : List (String × List JVal)),
      List.IsSuffix ((u, rs) :: tail) pages →
      chainNet pages u = FetchResult.ok (chainBody ((u, rs) :: tail)) := by
  intro pages
  induction pages with
  | nil =>
    intro _ u rs tail hs
    obtain ⟨pre, hpre⟩ := hs
    exact absurd hpre (by simp)
  | cons p ps ih =>
    intro hnd u rs tail hs
    obtain ⟨pre, hpre⟩ := hs
    cases pre with
    | nil =>
      simp only [List.nil_append] at hpre
      injection hpre with h1 h2
      subst h1; subst h2
      simp [chainNet]
    | cons q pre' =>
      injection hpre with h1 h2
      have hmem : u ∈ ps.map Prod.fst := by
        rw [← h2]
        exact List.mem_map.mpr ⟨(u, rs), by simp, rfl⟩
      rw [List.map_cons, List.nodup_cons] at hnd
      have hne : u ≠ p.1 := fun heq => hnd.1 (heq ▸ hmem)
      rw [chainNet, if_neg hne]
      exact ih hnd.2 u rs tail ⟨pre', h2⟩

/-- On a well-formed chain (distinct, nonempty URLs), the pagination loop
started at any suffix's first page fetches exactly the remaining pages'
URLs in order and appends their records to the accumulator. -/
theorem paginateLoop_chain (pages : List (String × List JVal))
    (hnd : (pages.map Prod.fst).Nodup) (hne : ∀ p ∈ pages, p.1 ≠ "") :
    ∀ (rest : List (String × List JVal)) (cur : String × List JVal)
      (acc : List JVal) (fuel : Nat),
      List.IsSuffix (cur :: rest) pages → rest.length ≤ fuel →
      paginateLoop (chainNet pages) fuel (chainBody (cur :: rest)) (JVal.arr acc)
        = (rest.map Prod.fst,
           RRes.done (JVal.arr (acc ++ (rest.map Prod.snd).flatten))) := by
  intro rest
  induction rest with
  | nil =>
    intro cur acc fuel _ _
    cases cur with
    | mk u rs =>
      cases fuel <;>
        simp [paginateLoop, chainBody, JVal.getItem, JVal.lookupField, JVal.truthy]
  | cons p rest' ih =>
    intro cur acc fuel hsuff hfuel
    cases fuel with
    | zero => exact absurd hfuel (by simp)
    | succ f =>
      cases cur with
      | mk u rs =>
        have hpmem : p ∈ pages := hsuff.subset (by simp)
        have hp1 : p.1 ≠ "" := hne p hpmem
        have hsuff' : List.IsSuffix (p :: rest') pages := by
          obtain ⟨pre, hpre⟩ := hsuff
          exact ⟨pre ++ [(u, rs)], by simpa using hpre⟩
        have hnet : chainNet pages p.1 = FetchResult.ok (chainBody (p :: rest')) := by
          have := chainNet_suffix pages hnd p.1 p.2 rest'
          simpa using this hsuff'
        have hrec := ih p (acc ++ p.2) f hsuff' (by simpa using Nat.le_of_succ_le_succ hfuel)
        simp only [chainBody] at hnet hrec ⊢
        cases p with
        | mk pu prs =>
          simp [paginateLoop, JVal.getItem, JVal.lookupField, JVal.truthy, hp1, hnet,
            JVal.pyIter, appendItems_arr, hrec]

/-- C5: over an n-page chain whose pages link each to the next and whose
last `next` is null (distinct nonempty URLs), pagination-mode
`request_get` returns the concatenation of all pages' `results` records
in server page order, issues exactly n requests (the trace lists each
page's URL once, in order), and fetches no page twice. -/
theorem claim_C5_pagination (u0 : String) (rs0 : List JVal)
    (rest : List (String × List JVal)) (fuel : Nat)
    (hnd : (((u0, rs0) :: rest).map Prod.fst).Nodup)
    (hne : ∀ p ∈ (u0, rs0) :: rest, p.1 ≠ "")
    (hfuel : rest.length ≤ fuel) :
    request_get (chainNet ((u0, rs0) :: rest)) fuel u0 "pagination"
      = (((u0, rs0) :: rest).map Prod.fst,
         RRes.done (JVal.arr ((((u0, rs0) :: rest).map Prod.snd).flatten))) ∧
    (((u0, rs0) :: rest).map Prod.fst).length = ((u0, rs0) :: rest).length ∧
    (((u0, rs0) :: rest).map Prod.fst).Nodup := by
  refine ⟨?_, by simp, hnd⟩
  have hnet0 : chainNet ((u0, rs0) :: rest) u0
      = FetchResult.ok (chainBody ((u0, rs0) :: rest)) := by
    rw [chainNet, if_pos rfl]
  have hloop := paginateLoop_chain ((u0, rs0) :: rest) hnd hne rest (u0, rs0) rs0 fuel
    (List.suffix_refl _) hfuel
  simp only [chainBody] at hnet0 hloop
  simp [request_get, hnet0, JVal.getItem, JVal.lookupField, hloop]

/-- C5 witness: a concrete 3-page chain. -/
theorem claim_C5_pagination_witness :
    request_get (chainNet [("p1", [JVal.num 1, JVal.num 2]), ("p2", [JVal.num 3]),
        ("p3", [JVal.num 4])]) 2 "p1" "pagination"
      = (["p1", "p2", "p3"],
         RRes.done (JVal.arr [JVal.num 1, JVal.num 2, JVal.num 3, JVal.num 4])) ∧
    (["p1", "p2", "p3"] : List String).length = 3 ∧
    (["p1", "p2", "p3"] : List String).Nodup := by
  have h := claim_C5_pagination "p1" [JVal.num 1, JVal.num 2]
    [("p2", [JVal.num 3]), ("p3", [JVal.num 4])] 2
    (by decide) (by decide) (by decide)
  simpa using h

/-- On the broken chain, requesting the URL heading any suffix serves
that suffix's first page body (with the last `next` pointing at `bad`). -/
theorem chainNetF_suffix (bad : String) (e : FetchResult) :
    ∀ (pages : List (String × List JVal)), (pages.map Prod.fst).Nodup →
    ∀ (u : String) (rs : List JVal) (tail : List (String × List JVal)),
      List.IsSuffix ((u, rs) :: tail) pages →
      chainNetF bad e pages u = FetchResult.ok (chainBodyF bad ((u, rs) :: tail)) := by
  intro pages
  induction pages with
  | nil =>
    intro _ u rs tail hs
    obtain ⟨pre, hpre⟩ := hs
    exact absurd hpre (by simp)
  | cons p ps ih =>
    intro hnd u rs tail hs
    obtain ⟨pre, hpre⟩ := hs
    cases pre with
    | nil =>
      simp only [List.nil_append] at hpre
      injection hpre with h1 h2
      subst h1; subst h2
      simp [chainNetF]
    | cons q pre' =>
      injection hpre with h1 h2
      have hmem : u ∈ ps.map Prod.fst := by
        rw [← h2]
        exact List.mem_map.mpr ⟨(u, rs), by simp, rfl⟩
      rw [List.map_cons, List.nodup_cons] at hnd
      have hne : u ≠ p.1 := fun heq => hnd.1 (heq ▸ hmem)
      rw [chainNetF, if_neg hne]
      exact ih hnd.2 u rs tail ⟨pre', h2⟩

/-- A URL outside the broken chain (in particular `bad` itself) fails
with the chosen failure kind. -/
theorem chainNetF_notMem (bad : String) (e : FetchResult) :
    ∀ (pages : List (String × List JVal)) (u : String),
      u ∉ pages.map Prod.fst → chainNetF bad e pages u = e := by
  intro pages
  induction pages with
  | nil => intro u _; rfl
  | cons p ps ih =>
    intro u hu
    rw [List.map_cons, List.mem_cons] at hu
    push_neg at hu
    rw [chainNetF, if_neg hu.1]
    exact ih u hu.2

/-- On the broken chain, the loop walks the remaining pages, then issues
one more request for `bad`; whichever of the three ways that request
fails, the bare `except:` catches it and the records accumulated so far
are returned. -/
theorem paginateLoop_chainF (bad : String) (e : FetchResult)
    (hfe : isFetchFailure e = true) (pages : List (String × List JVal))
    (hnd : (pages.map Prod.fst).Nodup) (hne : ∀ p ∈ pages, p.1 ≠ "")
    (hbad1 : bad ≠ "") (hbad2 : bad ∉ pages.map Prod.fst) :
    ∀ (rest : List (String × List JVal)) (cur : String × List JVal)
      (acc : List JVal) (fuel : Nat),
      List.IsSuffix (cur :: rest) pages → rest.length + 1 ≤ fuel →
      paginateLoop (chainNetF bad e pages) fuel (chainBodyF bad (cur :: rest)) (JVal.arr acc)
        = (rest.map Prod.fst ++ [bad],
           RRes.done (JVal.arr (acc ++ (rest.map Prod.snd).flatten))) := by
  intro rest
  induction rest with
  | nil =>
    intro cur acc fuel _ hfuel
    cases fuel with
    | zero => exact absurd hfuel (by simp)
    | succ f =>
      cases cur with
      | mk u rs =>
        have hfail : chainNetF bad e pages bad = e :=
          chainNetF_notMem bad e pages bad hbad2
        cases e with
        | ok b => simp [isFetchFailure] at hfe
        | connError =>
          simp [paginateLoop, chainBodyF, JVal.getItem, JVal.lookupField, JVal.truthy,
            hbad1, hfail]
        | httpError =>
          simp [paginateLoop, chainBodyF, JVal.getItem, JVal.lookupField, JVal.truthy,
            hbad1, hfail]
        | jsonError =>
          simp [paginateLoop, chainBodyF, JVal.getItem, JVal.lookupField, JVal.truthy,
            hbad1, hfail]
  | cons p rest' ih =>
    intro cur acc fuel hsuff hfuel
    cases fuel with
    | zero => exact absurd hfuel (by simp)
    | succ f =>
      cases cur with
      | mk u rs =>
        have hpmem : p ∈ pages := hsuff.subset (by simp)
        have hp1 : p.1 ≠ "" := hne p hpmem
        have hsuff' : List.IsSuffix (p :: rest') pages := by
          obtain ⟨pre, hpre⟩ := hsuff
          exact ⟨pre ++ [(u, rs)], by simpa using hpre⟩
        have hnet : chainNetF bad e pages p.1
            = FetchResult.ok (chainBodyF bad (p :: rest')) := by
          have := chainNetF_suffix bad e pages hnd p.1 p.2 rest'
          simpa using this hsuff'
        have hrec := ih p (acc ++ p.2) f hsuff'
          (by simpa using Nat.le_of_succ_le_succ hfuel)
        simp only [chainBodyF] at hnet hrec ⊢
        cases p with
        | mk pu prs =>
          simp [paginateLoop, JVal.getItem, JVal.lookupField, JVal.truthy, hp1, hnet,
            JVal.pyIter, appendItems_arr, hrec]

/-- C2 counterexample: a second page that parses as JSON but has no
`results` key raises a `KeyError` out of pagination-mode `request_get`
instead of returning page 1's records — `nextData['results']` is
evaluated outside the `try`. -/
theorem claim_C2_counterexample :
    request_get (fun u => if u = "p1"
        then FetchResult.ok (JVal.obj [("results", JVal.arr [JVal.num 1]), ("next", JVal.str "p2")])
        else FetchResult.ok (JVal.obj [("next", JVal.null)]))
      3 "p1" "pagination"
      = (["p1", "p2"], RRes.raised (PyErr.keyError "results")) ∧
    RRes.raised (PyErr.keyError "results") ≠ RRes.done (JVal.arr [JVal.num 1]) := by
  exact ⟨rfl, by simp⟩

/-- C2 (amended): any failure that the pagination loop's `try` can see
while fetching or JSON-parsing a page after the first — HTTP error
status, network failure, or a body that fails JSON parsing, here
quantified over all three failure kinds — is caught and the records
accumulated so far are returned as a normal value; but a page body that
parses successfully and lacks the `results` (or `next`) key raises a
`KeyError` to the caller (counterexample above). -/
theorem claim_C2_amended (u0 : String) (rs0 : List JVal)
    (rest : List (String × List JVal)) (bad : String) (e : FetchResult) (fuel : Nat)
    (hnd : (((u0, rs0) :: rest).map Prod.fst).Nodup)
    (hne : ∀ p ∈ (u0, rs0) :: rest, p.1 ≠ "")
    (hbad1 : bad ≠ "") (hbad2 : bad ∉ ((u0, rs0) :: rest).map Prod.fst)
    (hfe : isFetchFailure e = true)
    (hfuel : rest.length + 1 ≤ fuel) :
    request_get (chainNetF bad e ((u0, rs0) :: rest)) fuel u0 "pagination"
      = (((u0, rs0) :: rest).map Prod.fst ++ [bad],
         RRes.done (JVal.arr ((((u0, rs0) :: rest).map Prod.snd).flatten))) := by
  have hnet0 : chainNetF bad e ((u0, rs0) :: rest) u0
      = FetchResult.ok (chainBodyF bad ((u0, rs0) :: rest)) := by
    rw [chainNetF, if_pos rfl]
  have hloop := paginateLoop_chainF bad e hfe ((u0, rs0) :: rest) hnd hne hbad1 hbad2
    rest (u0, rs0) rs0 fuel (List.suffix_refl _) hfuel
  simp only [chainBodyF] at hnet0 hloop
  simp [request_get, hnet0, JVal.getItem, JVal.lookupField, hloop]

/-- C2 witness: one good page whose second fetch fails — by HTTP error
status, connection failure, or JSON-decode failure — returns page 1's
records only in each case. -/
theorem claim_C2_amended_witness :
    request_get (chainNetF "p2bad" FetchResult.httpError [("p1", [JVal.num 1, JVal.num 2])])
      1 "p1" "pagination"
      = (["p1", "p2bad"], RRes.done (JVal.arr [JVal.num 1, JVal.num 2])) ∧
    request_get (chainNetF "p2bad" FetchResult.connError [("p1", [JVal.num 1, JVal.num 2])])
      1 "p1" "pagination"
      = (["p1", "p2bad"], RRes.done (JVal.arr [JVal.num 1, JVal.num 2])) ∧
    request_get (chainNetF "p2bad" FetchResult.jsonError [("p1", [JVal.num 1, JVal.num 2])])
      1 "p1" "pagination"
      = (["p1", "p2bad"], RRes.done (JVal.arr [JVal.num 1, JVal.num 2])) := by
  refine ⟨?_, ?_, ?_⟩
  · have h := claim_C2_amended "p1" [JVal.num 1, JVal.num 2] [] "p2bad"
      FetchResult.httpError 1
      (by decide) (by decide) (by decide) (by decide) (by decide) (by decide)
    simpa using h
  · have h := claim_C2_amended "p1" [JVal.num 1, JVal.num 2] [] "p2bad"
      FetchResult.connError 1
      (by decide) (by decide) (by decide) (by decide) (by decide) (by decide)
    simpa using h
  · have h := claim_C2_amended "p1" [JVal.num 1, JVal.num 2] [] "p2bad"
      FetchResult.jsonError 1
      (by decide) (by decide) (by decide) (by decide) (by decide) (by decide)
    simpa using h

/-! ## Response shaper lemmas -/

/-- A field lookup succeeds exactly when some binding carries the key
(the `info in compareDict` test agrees with `compareDict[info]`). -/
theorem lookupField_isSome_any (d : List (String × JVal)) (f : String) :
    (JVal.lookupField d f).isSome = d.any (fun p => p.1 = f) := by
  induction d with
  | nil => rfl
  | cons p rest ih =>
    cases p with
    | mk k v =>
      by_cases h : k = f
      · simp [JVal.lookupField, h]
      · simp [JVal.lookupField, h, ih]

/-- Mapping `x[f]` over a list of dicts that all carry `f` collects the
looked-up values. -/
theorem mapGetItem_objs (f : String) :
    ∀ (ds : List (List (String × JVal))),
      (∀ d ∈ ds, (JVal.lookupField d f).isSome = true) →
      mapGetItem f (ds.map JVal.obj)
        = Except.ok (ds.map (fun d => (JVal.lookupField d f).getD JVal.null)) := by
  intro ds
  induction ds with
  | nil => intro _; rfl
  | cons d tl ih =>
    intro h
    obtain ⟨v, hv⟩ := Option.isSome_iff_exists.mp (h d (by simp))
    have htl := ih (fun d' hd' => h d' (by simp [hd']))
    simp [mapGetItem, JVal.getItem, hv, htl]

/-- C6: the response shaper's cases, in the order the code tests them:
absent data passes through; the `[None]` sentinel and the empty list
yield an empty sequence; a list of dicts that all carry the field yields
the list of looked-up values; a dict carrying the field yields its value;
a field absent from the first record's keys (or from the dict) degrades
to an empty/absent value without raising; and a null field request passes
any non-sentinel data through unchanged. -/
theorem claim_C6_filter_data (info : Option String) (f : String)
    (d0 fs : List (String × JVal)) (tl : List (List (String × JVal)))
    (recs : List JVal) (v : JVal) (data : JVal) :
    (filter_data JVal.null info = Except.ok JVal.null) ∧
    (filter_data (JVal.arr [JVal.null]) info = Except.ok (JVal.arr [])) ∧
    (filter_data (JVal.arr []) info = Except.ok (JVal.arr [])) ∧
    ((∀ d ∈ d0 :: tl, (JVal.lookupField d f).isSome = true) →
      filter_data (JVal.arr ((d0 :: tl).map JVal.obj)) (some f)
        = Except.ok (JVal.arr
            ((d0 :: tl).map (fun d => (JVal.lookupField d f).getD JVal.null)))) ∧
    (JVal.lookupField fs f = some v →
      filter_data (JVal.obj fs) (some f) = Except.ok v) ∧
    (JVal.lookupField d0 f = none →
      filter_data (JVal.arr (JVal.obj d0 :: recs)) (some f)
        = Except.ok (JVal.arr [])) ∧
    (JVal.lookupField fs f = none →
      filter_data (JVal.obj fs) (some f) = Except.ok JVal.null) ∧
    (data ≠ JVal.arr [JVal.null] → filter_data data none = Except.ok data) := by
  refine ⟨rfl, rfl, rfl, ?_, ?_, ?_, ?_, ?_⟩
  · intro h
    have h0 : (JVal.lookupField d0 f).isSome = true := h d0 (by simp)
    have hany : d0.any (fun p => p.1 = f) = true := by
      rw [← lookupField_isSome_any]; exact h0
    have hmap := mapGetItem_objs f (d0 :: tl) h
    simp only [List.map_cons] at hmap
    simp [filter_data, JVal.containsStr, hany, hmap]
  · intro hv
    have hany : fs.any (fun p => p.1 = f) = true := by
      rw [← lookupField_isSome_any, hv]; rfl
    simp [filter_data, JVal.containsStr, hany, JVal.getItem, hv]
  · intro h0
    have hany : d0.any (fun p => p.1 = f) = false := by
      rw [← lookupField_isSome_any, h0]; rfl
    simp [filter_data, JVal.containsStr, hany]
  · intro h0
    have hany : fs.any (fun p => p.1 = f) = false := by
      rw [← lookupField_isSome_any, h0]; rfl
    simp [filter_data, JVal.containsStr, hany]
  · intro h
    cases data with
    | null => rfl
    | bool b => rfl
    | num n => rfl
    | str s => rfl
    | obj o => rfl
    | arr xs =>
      match xs, h with
      | [], _ => rfl
      | JVal.null :: [], h => exact absurd rfl h
      | JVal.null :: y :: t, _ => rfl
      | JVal.bool b :: t, _ => rfl
      | JVal.num n :: t, _ => rfl
      | JVal.str s :: t, _ => rfl
      | JVal.arr a :: t, _ => rfl
      | JVal.obj o :: t, _ => rfl

/-- C6 witness: the shaper round-trip examples at concrete inputs. -/
theorem claim_C6_filter_data_witness :
    filter_data (JVal.arr [JVal.obj [("a", JVal.num 1)], JVal.obj [("a", JVal.num 2)]])
      (some "a") = Except.ok (JVal.arr [JVal.num 1, JVal.num 2]) ∧
    filter_data (JVal.obj [("a", JVal.num 1), ("b", JVal.num 2)]) (some "b")
      = Except.ok (JVal.num 2) ∧
    filter_data JVal.null (some "a") = Except.ok JVal.null ∧
    filter_data (JVal.arr [JVal.null]) (some "a") = Except.ok (JVal.arr []) ∧
    filter_data (JVal.obj [("a", JVal.num 1)]) (some "zz") = Except.ok JVal.null ∧
    filter_data (JVal.num 5) none = Except.ok (JVal.num 5) := by
  refine ⟨?_, ?_, ?_, ?_, ?_, ?_⟩
  · have h := (claim_C6_filter_data (some "a") "a" [("a", JVal.num 1)] []
      [[("a", JVal.num 2)]] [] JVal.null JVal.null).2.2.2.1 (by decide)
    simpa using h
  · exact (claim_C6_filter_data (some "b") "b" [] [("a", JVal.num 1), ("b", JVal.num 2)]
      [] [] (JVal.num 2) JVal.null).2.2.2.2.1 rfl
  · exact (claim_C6_filter_data (some "a") "a" [] [] [] [] JVal.null JVal.null).1
  · exact (claim_C6_filter_data (some "a") "a" [] [] [] [] JVal.null JVal.null).2.1
  · exact (claim_C6_filter_data (some "zz") "zz" [] [("a", JVal.num 1)] [] []
      JVal.null JVal.null).2.2.2.2.2.2.1 rfl
  · exact (claim_C6_filter_data none "x" [] [] [] [] JVal.null (JVal.num 5)).2.2.2.2.2.2.2
      (by simp)

/-! ## Device token lemmas -/

set_option maxRecDepth 4000 in
/-- Every byte's `hexa` entry is two lowercase hex characters, and
`unhexa` recovers the byte. -/
theorem hexa_fin : ∀ b : Fin 256,
    (hexa b.1).data.length = 2 ∧ (hexa b.1).data.all isLowerHexChar = true ∧
    unhexa (hexa b.1) = b.1 := by decide

/-- A two-element list is a literal pair. -/
theorem list_len2_pair {α : Type} (l : List α) (h : l.length = 2) :
    ∃ c d, l = [c, d] := by
  cases l with
  | nil => simp at h
  | cons a t =>
    cases t with
    | nil => simp at h
    | cons b t2 =>
      cases t2 with
      | nil => exact ⟨a, b, rfl⟩
      | cons c t3 => simp at h

/-- `hexa b` for a byte `b` is a two-character lowercase-hex string from
which `unhexa` recovers `b`. -/
theorem hexa_pair (b : Nat) (hb : b < 256) :
    ∃ c d, hexa b = String.mk [c, d] ∧ isLowerHexChar c = true ∧ isLowerHexChar d = true ∧
      unhexa (String.mk [c, d]) = b := by
  obtain ⟨h2, hall, hun⟩ := hexa_fin ⟨b, hb⟩
  obtain ⟨c, d, hcd⟩ := list_len2_pair _ h2
  have hs : hexa b = String.mk [c, d] := by
    conv_lhs => rw [show hexa b = String.mk (hexa b).data from rfl, hcd]
  rw [hcd] at hall
  simp only [List.all_cons, List.all_nil, Bool.and_eq_true, Bool.and_true] at hall
  refine ⟨c, d, hs, hall.1, hall.2, ?_⟩
  rw [← hs]; exact hun

/-- The assembly loop unrolled: four 2-byte... groups of hex pairs with
hyphens after bytes 3, 5, 7 and 9. -/
theorem buildTokenId_eq (b0 b1 b2 b3 b4 b5 b6 b7 b8 b9 b10 b11 b12 b13 b14 b15 : Nat) :
    buildTokenId [b0, b1, b2, b3, b4, b5, b6, b7, b8, b9, b10, b11, b12, b13, b14, b15]
      = "" ++ hexa b0 ++ hexa b1 ++ hexa b2 ++ hexa b3 ++ "-" ++ hexa b4 ++ hexa b5 ++ "-"
        ++ hexa b6 ++ hexa b7 ++ "-" ++ hexa b8 ++ hexa b9 ++ "-" ++ hexa b10 ++ hexa b11
        ++ hexa b12 ++ hexa b13 ++ hexa b14 ++ hexa b15 := rfl

/-- Concatenation of explicit strings concatenates their character
lists. -/
theorem mk_append_mk (a b : List Char) : String.mk a ++ String.mk b = String.mk (a ++ b) := rfl

/-- A token built from sixteen bytes has the UUID-like format. -/
theorem tokenId_format (b0 b1 b2 b3 b4 b5 b6 b7 b8 b9 b10 b11 b12 b13 b14 b15 : Nat)
    (h0 : b0 < 256) (h1 : b1 < 256) (h2 : b2 < 256) (h3 : b3 < 256)
    (h4 : b4 < 256) (h5 : b5 < 256) (h6 : b6 < 256) (h7 : b7 < 256)
    (h8 : b8 < 256) (h9 : b9 < 256) (h10 : b10 < 256) (h11 : b11 < 256)
    (h12 : b12 < 256) (h13 : b13 < 256) (h14 : b14 < 256) (h15 : b15 < 256) :
    isDeviceTokenFormat
      (buildTokenId [b0, b1, b2, b3, b4, b5, b6, b7, b8, b9, b10, b11, b12, b13, b14, b15])
      = true := by
  obtain ⟨c0, d0, he0, hx0, hy0, _⟩ := hexa_pair b0 h0
  obtain ⟨c1, d1, he1, hx1, hy1, _⟩ := hexa_pair b1 h1
  obtain ⟨c2, d2, he2, hx2, hy2, _⟩ := hexa_pair b2 h2
  obtain ⟨c3, d3, he3, hx3, hy3, _⟩ := hexa_pair b3 h3
  obtain ⟨c4, d4, he4, hx4, hy4, _⟩ := hexa_pair b4 h4
  obtain ⟨c5, d5, he5, hx5, hy5, _⟩ := hexa_pair b5 h5
  obtain ⟨c6, d6, he6, hx6, hy6, _⟩ := hexa_pair b6 h6
  obtain ⟨c7, d7, he7, hx7, hy7, _⟩ := hexa_pair b7 h7
  obtain ⟨c8, d8, he8, hx8, hy8, _⟩ := hexa_pair b8 h8
  obtain ⟨c9, d9, he9, hx9, hy9, _⟩ := hexa_pair b9 h9
  obtain ⟨c10, d10, he10, hx10, hy10, _⟩ := hexa_pair b10 h10
  obtain ⟨c11, d11, he11, hx11, hy11, _⟩ := hexa_pair b11 h11
  obtain ⟨c12, d12, he12, hx12, hy12, _⟩ := hexa_pair b12 h12
  obtain ⟨c13, d13, he13, hx13, hy13, _⟩ := hexa_pair b13 h13
  obtain ⟨c14, d14, he14, hx14, hy14, _⟩ := hexa_pair b14 h14
  obtain ⟨c15, d15, he15, hx15, hy15, _⟩ := hexa_pair b15 h15
  rw [buildTokenId_eq, he0, he1, he2, he3, he4, he5, he6, he7, he8, he9, he10,
    he11, he12, he13, he14, he15]
  simp [isDeviceTokenFormat, String.append, hx0, hy0, hx1, hy1, hx2, hy2, hx3, hy3,
    hx4, hy4, hx5, hy5, hx6, hy6, hx7, hy7, hx8, hy8, hx9, hy9, hx10, hy10,
    hx11, hy11, hx12, hy12, hx13, hy13, hx14, hy14, hx15, hy15]

/-- Two sixteen-byte sequences that assemble to the same token are
equal: the token determines the random bytes. -/
theorem tokenId_inj (b0 b1 b2 b3 b4 b5 b6 b7 b8 b9 b10 b11 b12 b13 b14 b15 : Nat)
    (a0 a1 a2 a3 a4 a5 a6 a7 a8 a9 a10 a11 a12 a13 a14 a15 : Nat)
    (h0 : b0 < 256) (h1 : b1 < 256) (h2 : b2 < 256) (h3 : b3 < 256)
    (h4 : b4 < 256) (h5 : b5 < 256) (h6 : b6 < 256) (h7 : b7 < 256)
    (h8 : b8 < 256) (h9 : b9 < 256) (h10 : b10 < 256) (h11 : b11 < 256)
    (h12 : b12 < 256) (h13 : b13 < 256) (h14 : b14 < 256) (h15 : b15 < 256)
    (k0 : a0 < 256) (k1 : a1 < 256) (k2 : a2 < 256) (k3 : a3 < 256)
    (k4 : a4 < 256) (k5 : a5 < 256) (k6 : a6 < 256) (k7 : a7 < 256)
    (k8 : a8 < 256) (k9 : a9 < 256) (k10 : a10 < 256) (k11 : a11 < 256)
    (k12 : a12 < 256) (k13 : a13 < 256) (k14 : a14 < 256) (k15 : a15 < 256)
    (heq : buildTokenId [b0, b1, b2, b3, b4, b5, b6, b7, b8, b9, b10, b11, b12, b13, b14, b15]
      = buildTokenId [a0, a1, a2, a3, a4, a5, a6, a7, a8, a9, a10, a11, a12, a13, a14, a15]) :
    ([b0, b1, b2, b3, b4, b5, b6, b7, b8, b9, b10, b11, b12, b13, b14, b15] : List Nat)
      = [a0, a1, a2, a3, a4, a5, a6, a7, a8, a9, a10, a11, a12, a13, a14, a15] := by
  obtain ⟨c0, d0, he0, _, _, hu0⟩ := hexa_pair b0 h0
  obtain ⟨c1, d1, he1, _, _, hu1⟩ := hexa_pair b1 h1
  obtain ⟨c2, d2, he2, _, _, hu2⟩ := hexa_pair b2 h2
  obtain ⟨c3, d3, he3, _, _, hu3⟩ := hexa_pair b3 h3
  obtain ⟨c4, d4, he4, _, _, hu4⟩ := hexa_pair b4 h4
  obtain ⟨c5, d5, he5, _, _, hu5⟩ := hexa_pair b5 h5
  obtain ⟨c6, d6, he6, _, _, hu6⟩ := hexa_pair b6 h6
  obtain ⟨c7, d7, he7, _, _, hu7⟩ := hexa_pair b7 h7
  obtain ⟨c8, d8, he8, _, _, hu8⟩ := hexa_pair b8 h8
  obtain ⟨c9, d9, he9, _, _, hu9⟩ := hexa_pair b9 h9
  obtain ⟨c10, d10, he10, _, _, hu10⟩ := hexa_pair b10 h10
  obtain ⟨c11, d11, he11, _, _, hu11⟩ := hexa_pair b11 h11
  obtain ⟨c12, d12, he12, _, _, hu12⟩ := hexa_pair b12 h12
  obtain ⟨c13, d13, he13, _, _, hu13⟩ := hexa_pair b13 h13
  obtain ⟨c14, d14, he14, _, _, hu14⟩ := hexa_pair b14 h14
  obtain ⟨c15, d15, he15, _, _, hu15⟩ := hexa_pair b15 h15
  obtain ⟨f0, g0, hf0, _, _, hv0⟩ := hexa_pair a0 k0
  obtain ⟨f1, g1, hf1, _, _, hv1⟩ := hexa_pair a1 k1
  obtain ⟨f2, g2, hf2, _, _, hv2⟩ := hexa_pair a2 k2
  obtain ⟨f3, g3, hf3, _, _, hv3⟩ := hexa_pair a3 k3
  obtain ⟨f4, g4, hf4, _, _, hv4⟩ := hexa_pair a4 k4
  obtain ⟨f5, g5, hf5, _, _, hv5⟩ := hexa_pair a5 k5
  obtain ⟨f6, g6, hf6, _, _, hv6⟩ := hexa_pair a6 k6
  obtain ⟨f7, g7, hf7, _, _, hv7⟩ := hexa_pair a7 k7
  obtain ⟨f8, g8, hf8, _, _, hv8⟩ := hexa_pair a8 k8
  obtain ⟨f9, g9, hf9, _, _, hv9⟩ := hexa_pair a9 k9
  obtain ⟨f10, g10, hf10, _, _, hv10⟩ := hexa_pair a10 k10
  obtain ⟨f11, g11, hf11, _, _, hv11⟩ := hexa_pair a11 k11
  obtain ⟨f12, g12, hf12, _, _, hv12⟩ := hexa_pair a12 k12
  obtain ⟨f13, g13, hf13, _, _, hv13⟩ := hexa_pair a13 k13
  obtain ⟨f14, g14, hf14, _, _, hv14⟩ := hexa_pair a14 k14
  obtain ⟨f15, g15, hf15, _, _, hv15⟩ := hexa_pair a15 k15
  rw [buildTokenId_eq, he0, he1, he2, he3, he4, he5, he6, he7, he8, he9, he10, he11,
    he12, he13, he14, he15, buildTokenId_eq, hf0, hf1, hf2, hf3, hf4, hf5, hf6, hf7,
    hf8, hf9, hf10, hf11, hf12, hf13, hf14, hf15] at heq
  simp only [show ("" : String) = String.mk [] from rfl,
    show ("-" : String) = String.mk ['-'] from rfl,
    mk_append_mk, List.append_assoc, List.cons_append, List.nil_append,
    List.append_nil] at heq
  have hdata : (c0 :: d0 :: c1 :: d1 :: c2 :: d2 :: c3 :: d3 :: '-' ::
      c4 :: d4 :: c5 :: d5 :: '-' :: c6 :: d6 :: c7 :: d7 :: '-' ::
      c8 :: d8 :: c9 :: d9 :: '-' :: c10 :: d10 :: c11 :: d11 ::
      c12 :: d12 :: c13 :: d13 :: c14 :: d14 :: c15 :: d15 :: ([] : List Char))
      = (f0 :: g0 :: f1 :: g1 :: f2 :: g2 :: f3 :: g3 :: '-' ::
      f4 :: g4 :: f5 :: g5 :: '-' :: f6 :: g6 :: f7 :: g7 :: '-' ::
      f8 :: g8 :: f9 :: g9 :: '-' :: f10 :: g10 :: f11 :: g11 ::
      f12 :: g12 :: f13 :: g13 :: f14 :: g14 :: f15 :: g15 :: ([] : List Char)) :=
    congrArg String.data heq
  simp only [List.cons.injEq, and_true] at hdata
  obtain ⟨q0, q1, q2, q3, q4, q5, q6, q7, _, q8, q9, q10, q11, _, q12, q13, q14, q15,
    _, q16, q17, q18, q19, _, q20, q21, q22, q23, q24, q25, q26, q27, q28, q29, q30,
    q31⟩ := hdata
  refine List.cons_eq_cons.mpr ⟨?_, ?_⟩
  · rw [← hu0, ← hv0, q0, q1]
  refine List.cons_eq_cons.mpr ⟨?_, ?_⟩
  · rw [← hu1, ← hv1, q2, q3]
  refine List.cons_eq_cons.mpr ⟨?_, ?_⟩
  · rw [← hu2, ← hv2, q4, q5]
  refine List.cons_eq_cons.mpr ⟨?_, ?_⟩
  · rw [← hu3, ← hv3, q6, q7]
  refine List.cons_eq_cons.mpr ⟨?_, ?_⟩
  · rw [← hu4, ← hv4, q8, q9]
  refine List.cons_eq_cons.mpr ⟨?_, ?_⟩
  · rw [← hu5, ← hv5, q10, q11]
  refine List.cons_eq_cons.mpr ⟨?_, ?_⟩
  · rw [← hu6, ← hv6, q12, q13]
  refine List.cons_eq_cons.mpr ⟨?_, ?_⟩
  · rw [← hu7, ← hv7, q14, q15]
  refine List.cons_eq_cons.mpr ⟨?_, ?_⟩
  · rw [← hu8, ← hv8, q16, q17]
  refine List.cons_eq_cons.mpr ⟨?_, ?_⟩
  · rw [← hu9, ← hv9, q18, q19]
  refine List.cons_eq_cons.mpr ⟨?_, ?_⟩
  · rw [← hu10, ← hv10, q20, q21]
  refine List.cons_eq_cons.mpr ⟨?_, ?_⟩
  · rw [← hu11, ← hv11, q22, q23]
  refine List.cons_eq_cons.mpr ⟨?_, ?_⟩
  · rw [← hu12, ← hv12, q24, q25]
  refine List.cons_eq_cons.mpr ⟨?_, ?_⟩
  · rw [← hu13, ← hv13, q26, q27]
  refine List.cons_eq_cons.mpr ⟨?_, ?_⟩
  · rw [← hu14, ← hv14, q28, q29]
  refine List.cons_eq_cons.mpr ⟨?_, ?_⟩
  · rw [← hu15, ← hv15, q30, q31]
  rfl

/-- C9: every token `generate_device_token` can produce — whatever the
sixteen random draws — is a 36-character string with hyphens exactly at
positions 8, 13, 18 and 23 and lowercase hex digits elsewhere (sixteen
encoded bytes); and two calls produce the same token only when their
derived random byte sequences coincide, so distinct draws give distinct
tokens. -/
theorem claim_C9_device_token :
    (∀ xs : List Nat, isDeviceTokenFormat (generate_device_token xs) = true) ∧
    (∀ xs1 xs2 : List Nat, generate_device_token xs1 = generate_device_token xs2 →
      tokenRands xs1 = tokenRands xs2) := by
  have B : ∀ x s : Nat, (x >>> s) &&& 255 < 256 := fun x s =>
    Nat.lt_succ_of_le Nat.and_le_right
  have ht : ∀ xs : List Nat, tokenRands xs =
      [(xs.getD 0 0 >>> ((3 &&& 0) <<< 3)) &&& 255,
       (xs.getD 1 0 >>> ((3 &&& 1) <<< 3)) &&& 255,
       (xs.getD 2 0 >>> ((3 &&& 2) <<< 3)) &&& 255,
       (xs.getD 3 0 >>> ((3 &&& 3) <<< 3)) &&& 255,
       (xs.getD 4 0 >>> ((3 &&& 4) <<< 3)) &&& 255,
       (xs.getD 5 0 >>> ((3 &&& 5) <<< 3)) &&& 255,
       (xs.getD 6 0 >>> ((3 &&& 6) <<< 3)) &&& 255,
       (xs.getD 7 0 >>> ((3 &&& 7) <<< 3)) &&& 255,
       (xs.getD 8 0 >>> ((3 &&& 8) <<< 3)) &&& 255,
       (xs.getD 9 0 >>> ((3 &&& 9) <<< 3)) &&& 255,
       (xs.getD 10 0 >>> ((3 &&& 10) <<< 3)) &&& 255,
       (xs.getD 11 0 >>> ((3 &&& 11) <<< 3)) &&& 255,
       (xs.getD 12 0 >>> ((3 &&& 12) <<< 3)) &&& 255,
       (xs.getD 13 0 >>> ((3 &&& 13) <<< 3)) &&& 255,
       (xs.getD 14 0 >>> ((3 &&& 14) <<< 3)) &&& 255,
       (xs.getD 15 0 >>> ((3 &&& 15) <<< 3)) &&& 255] := fun xs => rfl
  constructor
  · intro xs
    show isDeviceTokenFormat (buildTokenId (tokenRands xs)) = true
    rw [ht xs]
    exact tokenId_format _ _ _ _ _ _ _ _ _ _ _ _ _ _ _ _
      (B _ _) (B _ _) (B _ _) (B _ _) (B _ _) (B _ _) (B _ _) (B _ _)
      (B _ _) (B _ _) (B _ _) (B _ _) (B _ _) (B _ _) (B _ _) (B _ _)
  · intro xs1 xs2 h
    have h' : buildTokenId (tokenRands xs1) = buildTokenId (tokenRands xs2) := h
    rw [ht xs1, ht xs2] at h'
    rw [ht xs1, ht xs2]
    exact tokenId_inj _ _ _ _ _ _ _ _ _ _ _ _ _ _ _ _ _ _ _ _ _ _ _ _ _ _ _ _ _ _ _ _
      (B _ _) (B _ _) (B _ _) (B _ _) (B _ _) (B _ _) (B _ _) (B _ _)
      (B _ _) (B _ _) (B _ _) (B _ _) (B _ _) (B _ _) (B _ _) (B _ _)
      (B _ _) (B _ _) (B _ _) (B _ _) (B _ _) (B _ _) (B _ _) (B _ _)
      (B _ _) (B _ _) (B _ _) (B _ _) (B _ _) (B _ _) (B _ _) (B _ _) h'

/-- C9 witness: the format at one concrete draw and byte-recovery for
two identical calls. -/
theorem claim_C9_device_token_witness :
    isDeviceTokenFormat (generate_device_token
      [76, 4294967295, 305419896, 0, 255, 65536, 16777216, 1,
       2, 3, 5, 7, 11, 13, 17, 19]) = true ∧
    tokenRands [76, 4294967295, 305419896, 0, 255, 65536, 16777216, 1,
       2, 3, 5, 7, 11, 13, 17, 19]
      = tokenRands [76, 4294967295, 305419896, 0, 255, 65536, 16777216, 1,
       2, 3, 5, 7, 11, 13, 17, 19] :=
  ⟨claim_C9_device_token.1 _, claim_C9_device_token.2 _ _ rfl⟩

/-! ## Symbol normalization lemmas -/

/-- `Char.ofNat` on a valid uppercase-letter code is the identity on
codes. -/
theorem ofNat_toNat_of_valid (n : Nat) (h1 : 65 ≤ n) (h2 : n ≤ 90) :
    (Char.ofNat n).toNat = n := by
  have hv : n.isValidChar := Or.inl (by omega)
  rw [Char.ofNat, dif_pos hv]
  rfl

/-- An ASCII lowercase letter's code lies in 97–122. -/
theorem letter_bounds (c : Char) (h : ('a' ≤ c && c ≤ 'z') = true) :
    97 ≤ c.toNat ∧ c.toNat ≤ 122 := by
  rw [Bool.and_eq_true] at h
  obtain ⟨h1, h2⟩ := h
  rw [decide_eq_true_eq] at h1 h2
  exact ⟨h1, h2⟩

/-- Upper-casing a lowercase letter subtracts 32 from its code. -/
theorem pyUpperChar_toNat (c : Char) (h : ('a' ≤ c && c ≤ 'z') = true) :
    (pyUpperChar c).toNat = c.toNat - 32 := by
  obtain ⟨h1, h2⟩ := letter_bounds c h
  rw [pyUpperChar, if_pos h]
  exact ofNat_toNat_of_valid _ (by omega) (by omega)

/-- `upper` is idempotent on characters. -/
theorem pyUpperChar_idem (c : Char) : pyUpperChar (pyUpperChar c) = pyUpperChar c := by
  by_cases h : ('a' ≤ c && c ≤ 'z') = true
  · have ht := pyUpperChar_toNat c h
    obtain ⟨h1, h2⟩ := letter_bounds c h
    have hno : ('a' ≤ pyUpperChar c && pyUpperChar c ≤ 'z') = false := by
      rw [Bool.and_eq_false_iff]
      left
      rw [decide_eq_false_iff_not]
      intro hle
      have : 97 ≤ (pyUpperChar c).toNat := hle
      omega
    conv_lhs => rw [pyUpperChar, if_neg (by simp [hno])]
  · have hb : ('a' ≤ c && c ≤ 'z') = false := by
      cases hb : ('a' ≤ c && c ≤ 'z') with
      | true => exact absurd hb h
      | false => rfl
    have hc : pyUpperChar c = c := by
      rw [pyUpperChar, if_neg (by simp [hb])]
    rw [hc, hc]

/-- Characters with codes ≥ 65 are not Python whitespace. -/
theorem isPySpace_false_of_ge (d : Char) (h : 65 ≤ d.toNat) : isPySpace d = false := by
  rw [isPySpace]
  have hs : ∀ e : Char, e.toNat < 65 → (d == e) = false := by
    intro e he
    apply beq_eq_false_iff_ne.mpr
    intro hde
    rw [hde] at h
    omega
  rw [hs ' ' (by decide), hs '\t' (by decide), hs '\n' (by decide), hs '\r' (by decide),
    hs '\x0b' (by decide), hs '\x0c' (by decide)]
  rfl

/-- Upper-casing preserves whitespace-ness. -/
theorem isPySpace_pyUpperChar (c : Char) : isPySpace (pyUpperChar c) = isPySpace c := by
  by_cases h : ('a' ≤ c && c ≤ 'z') = true
  · have ht := pyUpperChar_toNat c h
    obtain ⟨h1, h2⟩ := letter_bounds c h
    rw [isPySpace_false_of_ge _ (by omega), isPySpace_false_of_ge _ (by omega)]
  · have hb : ('a' ≤ c && c ≤ 'z') = false := by
      cases hb : ('a' ≤ c && c ≤ 'z') with
      | true => exact absurd hb h
      | false => rfl
    have hc : pyUpperChar c = c := by
      rw [pyUpperChar, if_neg (by simp [hb])]
    rw [hc]

/-- Dropping a prefix twice drops it once. -/
theorem dropWhile_idem (p : Char → Bool) (l : List Char) :
    (l.dropWhile p).dropWhile p = l.dropWhile p := by
  cases h : l.dropWhile p with
  | nil => rfl
  | cons a t =>
    have hne : l.dropWhile p ≠ [] := by simp [h]
    have hp : p a = false := by
      have hh := List.head_dropWhile_not p l hne
      have : (l.dropWhile p).head hne = a := by simp [h]
      rwa [this] at hh
    rw [List.dropWhile_cons, if_neg (by simp [hp])]

/-- A list equal to its own `dropWhile` has a head not satisfying the
predicate. -/
theorem head_false_of_dropWhile_self (p : Char → Bool) (x : Char) (t : List Char)
    (h : List.dropWhile p (x :: t) = x :: t) : p x = false := by
  cases hb : p x with
  | false => rfl
  | true =>
    rw [List.dropWhile_cons, if_pos (by simp [hb])] at h
    have hlen := congrArg List.length h
    have hle := (List.dropWhile_suffix p (l := t)).length_le
    simp at hlen
    omega

/-- A stripped list has no leading whitespace left. -/
theorem stripData_dropWhile (l : List Char) :
    (stripData l).dropWhile isPySpace = stripData l := by
  cases hS : stripData l with
  | nil => rfl
  | cons x t =>
    have hpre : stripData l <+: l.dropWhile isPySpace := by
      rw [← List.reverse_suffix]
      rw [stripData, List.reverse_reverse]
      exact List.dropWhile_suffix isPySpace
    obtain ⟨t2, ht2⟩ := hpre
    rw [hS] at ht2
    have h1 : x :: (t ++ t2) = l.dropWhile isPySpace := by
      rw [← ht2, List.cons_append]
    have hA : List.dropWhile isPySpace (x :: (t ++ t2)) = x :: (t ++ t2) := by
      rw [h1]
      exact dropWhile_idem isPySpace l
    have hx : isPySpace x = false := head_false_of_dropWhile_self _ _ _ hA
    rw [List.dropWhile_cons, if_neg (by simp [hx])]

/-- `strip` is idempotent. -/
theorem stripData_idem (l : List Char) : stripData (stripData l) = stripData l := by
  rw [stripData, stripData_dropWhile]
  have h2 : (stripData l).reverse.dropWhile isPySpace = (stripData l).reverse := by
    rw [stripData, List.reverse_reverse]
    exact dropWhile_idem isPySpace _
  rw [h2, List.reverse_reverse]

/-- Upper-casing commutes with dropping leading whitespace. -/
theorem dropWhile_map_upper (m : List Char) :
    (m.map pyUpperChar).dropWhile isPySpace
      = (m.dropWhile isPySpace).map pyUpperChar := by
  rw [List.dropWhile_map,
    show (isPySpace ∘ pyUpperChar) = isPySpace from funext isPySpace_pyUpperChar]

/-- Upper-casing commutes with stripping. -/
theorem stripData_map (l : List Char) :
    stripData (l.map pyUpperChar) = (stripData l).map pyUpperChar := by
  rw [stripData, stripData, dropWhile_map_upper, ← List.map_reverse,
    dropWhile_map_upper, ← List.map_reverse]

/-- `symbol.upper().strip()` is idempotent. -/
theorem pyNormalize_idem (s : String) : pyNormalize (pyNormalize s) = pyNormalize s := by
  have key : ∀ m : List Char,
      stripData ((stripData (m.map pyUpperChar)).map pyUpperChar)
        = stripData (m.map pyUpperChar) := by
    intro m
    rw [← stripData_map, stripData_idem, List.map_map,
      show (pyUpperChar ∘ pyUpperChar) = pyUpperChar from funext pyUpperChar_idem]
  exact congrArg String.mk (key s.data)

theorem dedupFirst_nil : dedupFirst [] = [] := by
  rw [dedupFirst.eq_def]

theorem dedupFirst_cons (x : String) (xs : List String) :
    dedupFirst (x :: xs) = x :: dedupFirst (xs.filter (fun y => y ≠ x)) := by
  rw [dedupFirst.eq_def]

/-- Deduplication preserves membership. -/
theorem mem_dedupFirst (l : List String) (y : String) : y ∈ dedupFirst l ↔ y ∈ l := by
  match l with
  | [] => rw [dedupFirst_nil]
  | x :: xs =>
    rw [dedupFirst_cons]
    have ih := mem_dedupFirst (xs.filter (fun y => y ≠ x)) y
    constructor
    · intro hy
      rcases List.mem_cons.mp hy with h | h
      · simp [h]
      · have := ih.mp h
        rw [List.mem_filter] at this
        simp [this.1]
    · intro hy
      rcases List.mem_cons.mp hy with h | h
      · simp [h]
      · by_cases hyx : y = x
        · simp [hyx]
        · refine List.mem_cons.mpr (Or.inr (ih.mpr ?_))
          rw [List.mem_filter]
          exact ⟨h, by simp [hyx]⟩
termination_by l.length
decreasing_by
  simp only [List.length_cons]
  exact Nat.lt_succ_of_le (List.length_filter_le _ _)

/-- Deduplication leaves no duplicates. -/
theorem dedupFirst_nodup (l : List String) : (dedupFirst l).Nodup := by
  match l with
  | [] => rw [dedupFirst_nil]; exact List.nodup_nil
  | x :: xs =>
    rw [dedupFirst_cons]
    refine List.nodup_cons.mpr ⟨?_, dedupFirst_nodup _⟩
    intro hx
    have := (mem_dedupFirst _ _).mp hx
    rw [List.mem_filter] at this
    simp at this
termination_by l.length
decreasing_by
  simp only [List.length_cons]
  exact Nat.lt_succ_of_le (List.length_filter_le _ _)

/-- Deduplication fixes lists that already have no duplicates. -/
theorem dedupFirst_of_nodup (l : List String) (h : l.Nodup) : dedupFirst l = l := by
  match l with
  | [] => exact dedupFirst_nil
  | x :: xs =>
    rw [dedupFirst_cons]
    obtain ⟨hx, hxs⟩ := List.nodup_cons.mp h
    have hf : xs.filter (fun y => y ≠ x) = xs := by
      apply List.filter_eq_self.mpr
      intro a ha
      simp
      intro he
      exact hx (he ▸ ha)
    rw [hf, dedupFirst_of_nodup xs hxs]
termination_by l.length
decreasing_by
  simp only [List.length_cons]
  omega

/-- The `add_symbol` loop appends, after `acc`, exactly the normalized
symbols not already in `acc`, first occurrences only, in input order. -/
theorem addAllSymbols_eq (syms : List String) :
    ∀ acc : List String,
      addAllSymbols syms acc
        = acc ++ dedupFirst ((syms.map pyNormalize).filter (fun t => decide (t ∉ acc))) := by
  induction syms with
  | nil => intro acc; simp [addAllSymbols, dedupFirst_nil]
  | cons s rest ih =>
    intro acc
    rw [addAllSymbols]
    by_cases hmem : pyNormalize s ∈ acc
    · rw [if_pos hmem, ih acc]
      congr 2
      rw [List.map_cons, List.filter_cons]
      simp [hmem]
    · rw [if_neg hmem, ih (acc ++ [pyNormalize s])]
      rw [List.map_cons, List.filter_cons]
      rw [if_pos (by simp [hmem])]
      rw [dedupFirst_cons]
      have hfilt : (rest.map pyNormalize).filter (fun t => decide (t ∉ acc ++ [pyNormalize s]))
          = ((rest.map pyNormalize).filter (fun t => decide (t ∉ acc))).filter
              (fun y => y ≠ pyNormalize s) := by
        rw [List.filter_filter]
        apply List.filter_congr
        intro x _
        simp [List.mem_append, not_or, and_comm]
      rw [hfilt]
      simp

/-- Mapping a function that fixes every member is the identity. -/
theorem map_fixpoints (f : String → String) (l : List String) (h : ∀ x ∈ l, f x = x) :
    l.map f = l := by
  induction l with
  | nil => rfl
  | cons a t ih => simp [h a (by simp), ih (fun x hx => h x (by simp [hx]))]

/-- C10: `inputs_to_set` returns the upper-cased, whitespace-stripped
string symbols in order of first occurrence with no duplicates, silently
dropping non-string elements, and is idempotent: feeding its output back
in returns the same list. -/
theorem claim_C10_inputs_to_set :
    (∀ s : String, inputs_to_set (PyInput.str s) = [pyNormalize s]) ∧
    (∀ xs : List PyElem,
      inputs_to_set (PyInput.coll xs) = dedupFirst ((collStrings xs).map pyNormalize)) ∧
    (∀ inp : PyInput, (inputs_to_set inp).Nodup) ∧
    (∀ inp : PyInput,
      inputs_to_set (PyInput.coll ((inputs_to_set inp).map PyElem.str))
        = inputs_to_set inp) := by
  have hbase : ∀ syms : List String,
      addAllSymbols syms [] = dedupFirst (syms.map pyNormalize) := by
    intro syms
    rw [addAllSymbols_eq syms []]
    simp
  have hstr : ∀ s : String, inputs_to_set (PyInput.str s) = [pyNormalize s] := by
    intro s
    show addAllSymbols [s] [] = [pyNormalize s]
    rw [hbase]
    rw [List.map_cons, List.map_nil, dedupFirst_cons]
    simp [dedupFirst_nil]
  have hcoll : ∀ xs : List PyElem,
      inputs_to_set (PyInput.coll xs) = dedupFirst ((collStrings xs).map pyNormalize) := by
    intro xs
    exact hbase (collStrings xs)
  have hnodup : ∀ inp : PyInput, (inputs_to_set inp).Nodup := by
    intro inp
    cases inp with
    | str s => rw [hstr]; simp
    | coll xs => rw [hcoll]; exact dedupFirst_nodup _
    | other t => exact List.nodup_nil
  have hfix : ∀ inp : PyInput, ∀ t ∈ inputs_to_set inp, pyNormalize t = t := by
    intro inp t ht
    cases inp with
    | str s =>
      rw [hstr] at ht
      rcases List.mem_singleton.mp ht with rfl
      exact pyNormalize_idem s
    | coll xs =>
      rw [hcoll] at ht
      have := (mem_dedupFirst _ _).mp ht
      obtain ⟨u, _, rfl⟩ := List.mem_map.mp this
      exact pyNormalize_idem u
    | other tg => exact absurd ht (by simp [inputs_to_set])
  have hcollmap : ∀ l : List String, collStrings (l.map PyElem.str) = l := by
    intro l
    induction l with
    | nil => rfl
    | cons a t ih => simp [collStrings] at ih ⊢; exact ih
  refine ⟨hstr, hcoll, hnodup, ?_⟩
  intro inp
  rw [hcoll, hcollmap]
  rw [map_fixpoints _ _ (hfix inp)]
  exact dedupFirst_of_nodup _ (hnodup inp)
